import Mathlib

/-!
Verification of the Burger coroutine runtime core (Processor / Scheduler)
against its specification.  The definitions below are a shallow embedding of
`src/burger/net/Processor.cc` and `src/burger/net/Scheduler.cc`; parts of the
repository whose sources are not available (Coroutine.cc, CoEpoll.cc, Hook.cc,
CoTimerQueue.cc) are modelled from the specification and marked as such.
Coroutine callbacks are opaque function values; their run-time behaviour is
supplied by an explicit oracle (`SwapEffect`) where it matters.
-/

/-- Coroutine lifecycle states (spec section 3; Coroutine.h). -/
inductive CoState
  | INIT | HOLD | EXEC | READY | TERM | EXCEPT
deriving DecidableEq

/-- A coroutine shell: name and state.  The stack, saved context and callback
are abstracted away (the callback's behaviour enters through `SwapEffect`). -/
structure Co where
  name : String
  state : CoState
deriving DecidableEq

/-- A pending task: `Processor::task = std::pair<Coroutine::Callback, std::string>`;
the callback value is opaque, so only the name component is carried. -/
structure PTask where
  name : String
deriving DecidableEq

/-- The mutable state of one `Processor` (Processor.cc / Processor.h).
`timerDeadlines` abstracts the owned `CoTimerQueue` to its multiset of
deadlines; `wakeupCount` counts writes to the wakeup eventfd. -/
structure ProcState where
  stop : Bool
  load : Nat
  runnableCoQue : List Co
  idleCoQue : List Co
  pendingTasks : List PTask
  epolling : Bool
  wakeupCount : Nat
  threadId : Nat
  timerDeadlines : List Int
deriving DecidableEq

instance : Inhabited ProcState :=
  ⟨⟨false, 0, [], [], [], false, 0, 0, []⟩⟩

/-- Modelled from the spec: `Coroutine::reset(newCallback)` (Coroutine.cc is not
under src/) reuses the stack, clears the context and returns the coroutine to
INIT.  The new callback is opaque and not carried. -/
def Coroutine.reset (co : Co) : Co :=
  { co with state := CoState.INIT }

/-- Modelled from the spec: the precondition of `Coroutine::reset` — it is only
legal on a coroutine in state TERM or INIT (spec section 4.1). -/
def Coroutine.resetPre (co : Co) : Prop :=
  co.state = CoState.TERM ∨ co.state = CoState.INIT

instance (co : Co) : Decidable (Coroutine.resetPre co) := by
  unfold Coroutine.resetPre; infer_instance

/-- `Processor::wakeupEpollCo` — writes 8 bytes to the wakeup fd. -/
def Processor.wakeupEpollCo (s : ProcState) : ProcState :=
  { s with wakeupCount := s.wakeupCount + 1 }

/-- `Processor::addTask(Coroutine::ptr co)` (Processor.cc:109-117): sets the
coroutine's state to EXEC, enqueues it on the runnable queue, increments the
load counter, and wakes the epoll coroutine if it is polling. -/
def Processor.addTask (s : ProcState) (co : Co) : ProcState :=
  let co' := { co with state := CoState.EXEC }
  let s' := { s with runnableCoQue := s.runnableCoQue ++ [co'],
                     load := s.load + 1 }
  if s'.epolling then Processor.wakeupEpollCo s' else s'

/-- `Processor::resetAndGetCo` (Processor.cc:96-107): on an empty idle list a
fresh coroutine is constructed (a new `Coroutine` starts in INIT); otherwise
the idle-list head is popped, reset and renamed. -/
def Processor.resetAndGetCo (s : ProcState) (name : String) : Co × ProcState :=
  match s.idleCoQue with
  | [] => (⟨name, CoState.INIT⟩, s)
  | co :: rest =>
      ({ Coroutine.reset co with name := name },
       { s with idleCoQue := rest })

/-- `Processor::addTask(cb, name)` (Processor.cc:119-121). -/
def Processor.addTaskNamed (s : ProcState) (name : String) : ProcState :=
  let p := Processor.resetAndGetCo s name
  Processor.addTask p.2 p.1

/-- `Processor::addPendingTask` (Processor.cc:123-126): appends to the
pending-tasks buffer (without taking the mutex — see the access-trace model
below) and writes to the wakeup fd. -/
def Processor.addPendingTask (s : ProcState) (name : String) : ProcState :=
  Processor.wakeupEpollCo
    { s with pendingTasks := s.pendingTasks ++ [⟨name⟩] }

/-- `Processor::addPendingTasksIntoQueue` (Processor.cc:167-178): swaps the
pending buffer out under the mutex, then adds each drained task. -/
def Processor.addPendingTasksIntoQueue (s : ProcState) : ProcState :=
  let tasks := s.pendingTasks
  let s' := { s with pendingTasks := [] }
  tasks.foldl (fun acc t => Processor.addTaskNamed acc t.name) s'

/-- `Processor::stop` (Processor.cc:88-94): set the stop flag; if the epoll
coroutine is blocked in the kernel, write to the wakeup fd. -/
def Processor.stopProc (s : ProcState) : ProcState :=
  let s' := { s with stop := true }
  if s'.epolling then Processor.wakeupEpollCo s' else s'

/-- The per-Processor epoll coroutine, constructed at the top of
`Processor::run` (Processor.cc:63-64) with its state set to EXEC. -/
def epollCo0 : Co := ⟨"Epoll", CoState.EXEC⟩

/-- The observable outcome of one `cur->swapIn()` inside `Processor::run`:
the coroutine's state when the swap returns, the cross-thread
`addPendingTask` calls that happened while it ran, and whether
`Processor::stop` was requested meanwhile. -/
structure SwapEffect where
  post : CoState
  arrivals : List PTask
  stopReq : Bool
deriving DecidableEq

/-- One iteration of the `while` loop of `Processor::run` (Processor.cc:67-83):
pick the runnable-queue head (or the epoll coroutine when the queue is empty,
setting the epolling flag for the duration of the swap); swap in; on return,
if the state is TERM, decrement the load and push the shell on the idle list;
then drain the pending-tasks buffer.  Returns the new state and the coroutine
that was swapped in (with its post-swap state). -/
def Processor.runStep (s : ProcState) (e : SwapEffect) : ProcState × Co :=
  let cur0 := s.runnableCoQue.headD epollCo0
  let s1 := if s.runnableCoQue.isEmpty
            then { s with epolling := true }
            else { s with runnableCoQue := s.runnableCoQue.tail }
  let cur := { cur0 with state := e.post }
  let s2 := { s1 with pendingTasks := s1.pendingTasks ++ e.arrivals,
                      wakeupCount := s1.wakeupCount + e.arrivals.length,
                      stop := s1.stop || e.stopReq,
                      epolling := false }
  let s3 := if cur.state = CoState.TERM
            then { s2 with load := s2.load - 1,
                           idleCoQue := s2.idleCoQue ++ [cur] }
            else s2
  (Processor.addPendingTasksIntoQueue s3, cur)

/-- The `while (!stop_ || !runnableCoQue_.empty())` loop of `Processor::run`,
fuelled.  Returns the final state, the trace of swapped-in coroutines, and
whether the loop exited through its guard (rather than running out of fuel). -/
def Processor.runLoop (eff : Nat → SwapEffect) :
    Nat → Nat → ProcState → ProcState × List Co × Bool
  | 0, _, s => (s, [], s.stop && s.runnableCoQue.isEmpty)
  | Nat.succ fuel, i, s =>
      if s.stop && s.runnableCoQue.isEmpty then (s, [], true)
      else
        let p := Processor.runStep s (eff i)
        let r := Processor.runLoop eff fuel (i + 1) p.1
        (r.1, p.2 :: r.2.1, r.2.2)

/-- `Processor::run` (Processor.cc:57-86): clears the stop flag, runs the loop,
and after the loop swaps into the epoll coroutine exactly once more
(Processor.cc:85).  Returns the final state and the full swap trace. -/
def Processor.run (eff : Nat → SwapEffect) (fuel : Nat) (s : ProcState) :
    ProcState × List Co :=
  let s0 := { s with stop := false }
  let r := Processor.runLoop eff fuel 0 s0
  (r.1, r.2.1 ++ [epollCo0])

/-- A freshly constructed Processor (Processor.cc:19-48): all queues empty,
then the constructor adds the two helper tasks named Wake and timerQue. -/
def emptyProc (tid : Nat) : ProcState :=
  ⟨false, 0, [], [], [], false, 0, tid, []⟩

/-- `Processor::Processor` (Processor.cc:19-48): the constructor enqueues the
wakeup-consuming coroutine and the timer-dispatch coroutine. -/
def processorNew (tid : Nat) : ProcState :=
  Processor.addTaskNamed (Processor.addTaskNamed (emptyProc tid) "Wake") "timerQue"

/-- Whether one round of the Wake helper's loop body exits the loop
(Processor.cc:33-40): the loop runs while the stop flag is unset and breaks
when `consumeWakeUp()` (the 8-byte read of the wakeup fd) returns a negative
value. -/
def wakeLoopExits (stop : Bool) (readResult : Int) : Bool :=
  if stop then true
  else if readResult < 0 then true
  else false

/-- Whether one round of the timerQue helper's loop body exits the loop
(Processor.cc:42-46): it loops while the stop flag is unset. -/
def timerLoopExits (stop : Bool) : Bool := stop

/-- Modelled from the spec: the trampoline sets a coroutine's state to TERM
when its callback returns normally (spec section 4.1; Coroutine.cc is not
under src/).  Hence the Wake coroutine's state after a loop round is TERM
exactly when the round exits the loop. -/
def wakeCoStateAfterStep (stop : Bool) (readResult : Int) : Option CoState :=
  if wakeLoopExits stop readResult then some CoState.TERM else none

/-- The states of a single Processor reachable through its public operations
and the iterations of `run`. -/
inductive Reach : ProcState → Prop
  | init (tid : Nat) : Reach (processorNew tid)
  | addTask {s : ProcState} (co : Co) : Reach s → Reach (Processor.addTask s co)
  | addTaskNamed {s : ProcState} (name : String) :
      Reach s → Reach (Processor.addTaskNamed s name)
  | addPendingTask {s : ProcState} (name : String) :
      Reach s → Reach (Processor.addPendingTask s name)
  | drain {s : ProcState} : Reach s → Reach (Processor.addPendingTasksIntoQueue s)
  | runEnter {s : ProcState} : Reach s → Reach { s with stop := false }
  | runStep {s : ProcState} (e : SwapEffect) :
      Reach s → Reach (Processor.runStep s e).1
  | stop {s : ProcState} : Reach s → Reach (Processor.stopProc s)

/-! ### Thread-ownership checks and CoEpoll forwarding (Processor.cc:128-148) -/

/-- The fatal errors raised through `CRITICAL(...)` / failed assertions. -/
inductive FatalErr
  | notInProcThread
  | startSchedulerFirst
  | assertProcNull
deriving DecidableEq

/-- Modelled from the spec: CoEpoll's fd registrations, abstracted to a map
from fd to interest mask (spec section 4.3; CoEpoll.cc is not under src/). -/
abbrev EpollState := List (Int × Int)

/-- Modelled from the spec: `CoEpoll::updateEvent` adds or modifies the
registration for `fd` (spec section 4.3). -/
def CoEpoll.updateEvent (ep : EpollState) (fd events : Int) : EpollState :=
  (fd, events) :: ep.filter (fun p => p.1 ≠ fd)

/-- Modelled from the spec: `CoEpoll::removeEvent` deletes the registration
for `fd` (spec section 4.3). -/
def CoEpoll.removeEvent (ep : EpollState) (fd : Int) : EpollState :=
  ep.filter (fun p => p.1 ≠ fd)

/-- `Processor::isInProcThread` (Processor.cc:146-148). -/
def Processor.isInProcThread (s : ProcState) (callerTid : Nat) : Bool :=
  s.threadId == callerTid

/-- `Processor::assertInProcThread` (Processor.cc:140-144): aborts with a
diagnostic (`abortNotInProcThread`) when the calling thread is not the
Processor's owning thread. -/
def Processor.assertInProcThread (s : ProcState) (callerTid : Nat) :
    Except FatalErr Unit :=
  if Processor.isInProcThread s callerTid then Except.ok ()
  else Except.error FatalErr.notInProcThread

/-- `Processor::updateEvent` (Processor.cc:128-130): forwards to
`CoEpoll::updateEvent` unconditionally — the body performs no thread check. -/
def Processor.updateEvent (s : ProcState) (callerTid : Nat) (ep : EpollState)
    (fd events : Int) : Except FatalErr EpollState :=
  Except.ok (CoEpoll.updateEvent ep fd events)

/-- `Processor::removeEvent` (Processor.cc:132-134): forwards to
`CoEpoll::removeEvent` unconditionally — the body performs no thread check. -/
def Processor.removeEvent (s : ProcState) (callerTid : Nat) (ep : EpollState)
    (fd : Int) : Except FatalErr EpollState :=
  Except.ok (CoEpoll.removeEvent ep fd)

/-! ### Access-trace model of the pending-tasks buffer synchronisation
(Processor.cc:123-126 and 167-178).  Each function body is embedded as the
sequence of its statements that matter to the mutex discipline. -/

/-- The atomic statements of the two functions touching `pendingTasks_`. -/
inductive PStmt
  | appendPending   -- pendingTasks_.emplace_back(cb, name)
  | writeWakeup     -- wakeupEpollCo()
  | lockMutex       -- std::lock_guard<std::mutex> lock(mutex_) acquires
  | unlockMutex     -- the lock_guard releases at scope exit
  | swapPending     -- tasks.swap(pendingTasks_)
  | setAddingFlag (b : Bool)  -- addingPendingTasks_ = b
  | runDrainedTasks -- the for loop calling addTask on the drained copy
deriving DecidableEq

/-- The body of `Processor::addPendingTask` (Processor.cc:123-126):
it appends to `pendingTasks_` and writes the wakeup fd; it never touches
`mutex_`. -/
def addPendingTaskStmts : List PStmt :=
  [PStmt.appendPending, PStmt.writeWakeup]

/-- The body of `Processor::addPendingTasksIntoQueue` (Processor.cc:167-178):
sets the adding flag, swaps the buffer out under `mutex_`, runs the drained
tasks, clears the flag. -/
def addPendingTasksIntoQueueStmts : List PStmt :=
  [PStmt.setAddingFlag true, PStmt.lockMutex, PStmt.swapPending,
   PStmt.unlockMutex, PStmt.runDrainedTasks, PStmt.setAddingFlag false]

/-- Which statements access the `pendingTasks_` buffer itself. -/
def touchesPendingTasks : PStmt → Bool
  | PStmt.appendPending => true
  | PStmt.swapPending => true
  | _ => false

/-- Whether `mutex_` is held when the statement at position `i` executes:
more acquisitions than releases among the preceding statements. -/
def mutexHeldAt (stmts : List PStmt) (i : Nat) : Bool :=
  (stmts.take i).count PStmt.lockMutex > (stmts.take i).count PStmt.unlockMutex

/-! ### Scheduler (Scheduler.cc) -/

/-- The result of `Scheduler::pickOneProcesser`: the main Processor or the
worker at a given position of `workProcVec_`. -/
inductive Picked
  | main
  | worker (i : Nat)
deriving DecidableEq

/-- How `Scheduler::stop` performs the join (Scheduler.cc:81-87). -/
inductive JoinMode
  | inlineJoin      -- joinThread() called on the current thread
  | detachedHelper  -- joinThread runs on a detached std::thread
deriving DecidableEq

/-- The mutable state of a `Scheduler` (Scheduler.cc / Scheduler.h).
`mainStopRequested` records that `mainProc_->stop()` was called (the pointer
itself is nulled right after); `threadsJoined` records completion of
`joinThread`; `rrIndex` is the round-robin index of `pickOneProcesser`. -/
structure SchedState where
  running : Bool
  quit : Bool
  threadsJoined : Bool
  mainStopRequested : Bool
  mainProc : Option ProcState
  workProcs : List ProcState
  rrIndex : Nat
deriving DecidableEq

/-- A Scheduler as constructed (Scheduler.cc:28-31): not running, no
Processors yet. -/
def schedulerNew : SchedState :=
  ⟨false, false, false, false, none, [], 0⟩

/-- `Scheduler::pickOneProcesser` (Scheduler.cc:133-147): start from the main
Processor; fatal `CRITICAL("start scheduler first")` when there are no workers
and no main Processor (modelled from the spec: Misuse errors abort, section 7);
when workers exist, pick the worker at the round-robin index and advance the
index modulo the worker count. -/
def Scheduler.pickOneProcesser (s : SchedState) :
    Except FatalErr (Picked × SchedState) :=
  if s.workProcs.isEmpty && s.mainProc.isNone then
    Except.error FatalErr.startSchedulerFirst
  else if s.workProcs.isEmpty then
    Except.ok (Picked.main, s)
  else
    Except.ok (Picked.worker s.rrIndex,
      { s with rrIndex := (s.rrIndex + 1) % s.workProcs.length })

/-- `Scheduler::addTask` (Scheduler.cc:90-94): pick a Processor, assert it is
non-null, and append the task to its pending buffer via
`Processor::addPendingTask`. -/
def Scheduler.addTaskS (s : SchedState) (name : String) :
    Except FatalErr (Picked × SchedState) :=
  match Scheduler.pickOneProcesser s with
  | Except.error e => Except.error e
  | Except.ok (Picked.main, s') =>
      match s'.mainProc with
      | some p =>
          Except.ok (Picked.main,
            { s' with mainProc := some (Processor.addPendingTask p name) })
      | none => Except.error FatalErr.assertProcNull
  | Except.ok (Picked.worker i, s') =>
      let p' := Processor.addPendingTask (s'.workProcs.getD i default) name
      Except.ok (Picked.worker i, { s' with workProcs := s'.workProcs.set i p' })

/-- `Scheduler::runAt` (Scheduler.cc:96-99 / 112-115): pick a Processor and add
a timer with the given absolute deadline to its timer queue (the queue is
abstracted to its deadlines). -/
def Scheduler.runAtS (s : SchedState) (when : Int) :
    Except FatalErr (Picked × SchedState) :=
  match Scheduler.pickOneProcesser s with
  | Except.error e => Except.error e
  | Except.ok (Picked.main, s') =>
      match s'.mainProc with
      | some p =>
          let p' := { p with timerDeadlines := p.timerDeadlines ++ [when] }
          Except.ok (Picked.main, { s' with mainProc := some p' })
      | none => Except.error FatalErr.assertProcNull
  | Except.ok (Picked.worker i, s') =>
      let p := s'.workProcs.getD i default
      let p' := { p with timerDeadlines := p.timerDeadlines ++ [when] }
      Except.ok (Picked.worker i, { s' with workProcs := s'.workProcs.set i p' })

/-- `Scheduler::runAfter` (Scheduler.cc:101-104): `runAt(now + delay)`. -/
def Scheduler.runAfterS (s : SchedState) (now delay : Int) :
    Except FatalErr (Picked × SchedState) :=
  Scheduler.runAtS s (now + delay)

/-- `Scheduler::joinThread` (Scheduler.cc:149-157): joins the start thread and
every worker thread, then sets `quit_` and notifies `quitCv_`. -/
def Scheduler.joinThread (s : SchedState) : SchedState :=
  { s with threadsJoined := true, quit := true }

/-- `Scheduler::wait` (Scheduler.cc:68-71): blocks until `quit_` is true; it
can return exactly in states where `quit` holds. -/
def Scheduler.waitReturns (s : SchedState) : Bool := s.quit

/-- `Scheduler::stop` (Scheduler.cc:73-88): no-op unless running; otherwise
clear `running_`, request stop on the main Processor (then null the pointer)
and on every worker, and join — inline when the caller is not a Processor
thread, on a detached helper thread when it is (detected via the thread's
hook-enabled flag `isHookEnable()`). -/
def Scheduler.stopS (s : SchedState) (hookEnabled : Bool) :
    SchedState × Option JoinMode :=
  if !s.running then (s, none)
  else
    let s1 := { s with running := false,
                       mainStopRequested := true,
                       mainProc := none,
                       workProcs := s.workProcs.map Processor.stopProc }
    if hookEnabled then (s1, some JoinMode.detachedHelper)
    else (Scheduler.joinThread s1, some JoinMode.inlineJoin)

/-! ### Pure round-robin dispatch model (for the fan-out property) -/

/-- Round-robin assignment: give the n-th task the worker index obtained by
starting from `i` and advancing modulo `k`, exactly as `pickOneProcesser`
advances `index`. -/
def rrAssign (k : Nat) : Nat → List String → List (Nat × String)
  | _, [] => []
  | i, t :: ts => (i, t) :: rrAssign k ((i + 1) % k) ts

/-- The tasks the worker at position `j` receives when `ts` is dispatched
round-robin starting from index `i`. -/
def rrBucketFrom (k i j : Nat) (ts : List String) : List String :=
  ((rrAssign k i ts).filter (fun p => p.1 = j)).map Prod.snd

/-- Submitting a list of tasks through `Scheduler::addTask`, one at a time. -/
def Scheduler.submitList (s : SchedState) : List String → Except FatalErr SchedState
  | [] => Except.ok s
  | t :: ts =>
      match Scheduler.addTaskS s t with
      | Except.error e => Except.error e
      | Except.ok (_, s') => Scheduler.submitList s' ts

/-- A concrete swap oracle: every swapped coroutine returns in TERM with no
cross-thread activity. -/
def c3eff : Nat → SwapEffect := fun _ => ⟨CoState.TERM, [], false⟩

/-- A concrete Processor on which stop has been requested right after
construction: stop flag set, Wake and timerQue still queued. -/
def c3state : ProcState := Processor.stopProc (processorNew 1)

/-- A concrete running Scheduler with one main and two worker Processors. -/
def c8state : SchedState :=
  ⟨true, false, false, false, some (emptyProc 1), [emptyProc 2, emptyProc 3], 0⟩

/-- A concrete Scheduler with two workers for the fan-out scenario. -/
def c2state : SchedState :=
  ⟨true, false, false, false, some (emptyProc 1), [emptyProc 2, emptyProc 3], 0⟩

/-- Four concrete tasks to fan out over the two workers. -/
def c2tasks : List String := ["a", "b", "c", "d"]

/-- The Scheduler state after one successful worker-targeted `addTask`:
the chosen worker's pending buffer is extended and the round-robin index
advances (the worker case of `Scheduler.addTaskS`). -/
def submitStep (s : SchedState) (t : String) : SchedState :=
  { s with rrIndex := (s.rrIndex + 1) % s.workProcs.length,
           workProcs := s.workProcs.set s.rrIndex
             (Processor.addPendingTask (s.workProcs.getD s.rrIndex default) t) }

/-! ## Component lemmas about the Processor operations -/

theorem runnableCoQue_addTask (s : ProcState) (co : Co) :
    (Processor.addTask s co).runnableCoQue
      = s.runnableCoQue ++ [{ co with state := CoState.EXEC }] := by
  simp only [Processor.addTask, Processor.wakeupEpollCo]
  split <;> rfl

theorem idleCoQue_addTask (s : ProcState) (co : Co) :
    (Processor.addTask s co).idleCoQue = s.idleCoQue := by
  simp only [Processor.addTask, Processor.wakeupEpollCo]
  split <;> rfl

theorem load_addTask (s : ProcState) (co : Co) :
    (Processor.addTask s co).load = s.load + 1 := by
  simp only [Processor.addTask, Processor.wakeupEpollCo]
  split <;> rfl

theorem pendingTasks_addTask (s : ProcState) (co : Co) :
    (Processor.addTask s co).pendingTasks = s.pendingTasks := by
  simp only [Processor.addTask, Processor.wakeupEpollCo]
  split <;> rfl

theorem stop_addTask (s : ProcState) (co : Co) :
    (Processor.addTask s co).stop = s.stop := by
  simp only [Processor.addTask, Processor.wakeupEpollCo]
  split <;> rfl

theorem runnableCoQue_addTaskNamed (s : ProcState) (name : String) :
    (Processor.addTaskNamed s name).runnableCoQue
      = s.runnableCoQue ++ [⟨name, CoState.EXEC⟩] := by
  unfold Processor.addTaskNamed
  cases hq : s.idleCoQue <;>
    simp [Processor.resetAndGetCo, hq, runnableCoQue_addTask, Coroutine.reset]

theorem idleCoQue_addTaskNamed (s : ProcState) (name : String) :
    (Processor.addTaskNamed s name).idleCoQue = s.idleCoQue.tail := by
  unfold Processor.addTaskNamed
  cases hq : s.idleCoQue <;>
    simp [Processor.resetAndGetCo, hq, idleCoQue_addTask]

theorem load_addTaskNamed (s : ProcState) (name : String) :
    (Processor.addTaskNamed s name).load = s.load + 1 := by
  unfold Processor.addTaskNamed
  cases hq : s.idleCoQue <;>
    simp [Processor.resetAndGetCo, hq, load_addTask]

theorem pendingTasks_addTaskNamed (s : ProcState) (name : String) :
    (Processor.addTaskNamed s name).pendingTasks = s.pendingTasks := by
  unfold Processor.addTaskNamed
  cases hq : s.idleCoQue <;>
    simp [Processor.resetAndGetCo, hq, pendingTasks_addTask]

theorem stop_addTaskNamed (s : ProcState) (name : String) :
    (Processor.addTaskNamed s name).stop = s.stop := by
  unfold Processor.addTaskNamed
  cases hq : s.idleCoQue <;>
    simp [Processor.resetAndGetCo, hq, stop_addTask]

/-- The drain's fold, characterised on the runnable queue. -/
theorem foldl_addTaskNamed_queue (ts : List PTask) (acc : ProcState) :
    (ts.foldl (fun a t => Processor.addTaskNamed a t.name) acc).runnableCoQue
      = acc.runnableCoQue ++ ts.map (fun t => (⟨t.name, CoState.EXEC⟩ : Co)) := by
  induction ts generalizing acc with
  | nil => simp
  | cons t ts ih => simp [ih, runnableCoQue_addTaskNamed]

theorem foldl_addTaskNamed_pending (ts : List PTask) (acc : ProcState) :
    (ts.foldl (fun a t => Processor.addTaskNamed a t.name) acc).pendingTasks
      = acc.pendingTasks := by
  induction ts generalizing acc with
  | nil => rfl
  | cons t ts ih => simp [ih, pendingTasks_addTaskNamed]

theorem foldl_addTaskNamed_stop (ts : List PTask) (acc : ProcState) :
    (ts.foldl (fun a t => Processor.addTaskNamed a t.name) acc).stop = acc.stop := by
  induction ts generalizing acc with
  | nil => rfl
  | cons t ts ih => simp [ih, stop_addTaskNamed]

theorem foldl_addTaskNamed_load (ts : List PTask) (acc : ProcState) :
    (ts.foldl (fun a t => Processor.addTaskNamed a t.name) acc).load
      = acc.load + ts.length := by
  induction ts generalizing acc with
  | nil => rfl
  | cons t ts ih => simp [ih, load_addTaskNamed]; omega

theorem idle_foldl_addTaskNamed_mem (ts : List PTask) (acc : ProcState) (c : Co)
    (h : c ∈ (ts.foldl (fun a t => Processor.addTaskNamed a t.name) acc).idleCoQue) :
    c ∈ acc.idleCoQue := by
  induction ts generalizing acc with
  | nil => exact h
  | cons t ts ih =>
      have h' := ih _ h
      rw [idleCoQue_addTaskNamed] at h'
      exact List.mem_of_mem_tail h'

theorem pendingTasks_drain (s : ProcState) :
    (Processor.addPendingTasksIntoQueue s).pendingTasks = [] := by
  unfold Processor.addPendingTasksIntoQueue
  rw [foldl_addTaskNamed_pending]

theorem runnableCoQue_drain (s : ProcState) :
    (Processor.addPendingTasksIntoQueue s).runnableCoQue
      = s.runnableCoQue ++ s.pendingTasks.map (fun t => (⟨t.name, CoState.EXEC⟩ : Co)) := by
  unfold Processor.addPendingTasksIntoQueue
  rw [foldl_addTaskNamed_queue]

theorem stop_drain (s : ProcState) :
    (Processor.addPendingTasksIntoQueue s).stop = s.stop := by
  unfold Processor.addPendingTasksIntoQueue
  rw [foldl_addTaskNamed_stop]

theorem load_drain (s : ProcState) :
    (Processor.addPendingTasksIntoQueue s).load = s.load + s.pendingTasks.length := by
  unfold Processor.addPendingTasksIntoQueue
  rw [foldl_addTaskNamed_load]

theorem idle_drain_mem (s : ProcState) (c : Co)
    (h : c ∈ (Processor.addPendingTasksIntoQueue s).idleCoQue) : c ∈ s.idleCoQue := by
  unfold Processor.addPendingTasksIntoQueue at h
  exact idle_foldl_addTaskNamed_mem s.pendingTasks { s with pendingTasks := [] } c h

/-- Draining an empty pending buffer is the identity. -/
theorem drain_pending_nil (s : ProcState) (h : s.pendingTasks = []) :
    Processor.addPendingTasksIntoQueue s = s := by
  unfold Processor.addPendingTasksIntoQueue
  rw [h]
  cases s
  simp_all

/-- The coroutine swapped in by one loop iteration is the runnable-queue head,
or the epoll coroutine when the queue is empty (its recorded state is the
state observed when the swap returns). -/
theorem runStep_snd (s : ProcState) (e : SwapEffect) :
    (Processor.runStep s e).2
      = { s.runnableCoQue.headD epollCo0 with state := e.post } := rfl

theorem runStep_queue (s : ProcState) (e : SwapEffect) :
    (Processor.runStep s e).1.runnableCoQue
      = s.runnableCoQue.tail
          ++ (s.pendingTasks ++ e.arrivals).map (fun t => (⟨t.name, CoState.EXEC⟩ : Co)) := by
  simp only [Processor.runStep]
  rw [runnableCoQue_drain]
  cases hq : s.runnableCoQue <;> split <;> simp [hq]

theorem runStep_pending (s : ProcState) (e : SwapEffect) :
    (Processor.runStep s e).1.pendingTasks = [] := by
  simp only [Processor.runStep]
  rw [pendingTasks_drain]

theorem runStep_stop (s : ProcState) (e : SwapEffect) :
    (Processor.runStep s e).1.stop = (s.stop || e.stopReq) := by
  simp only [Processor.runStep]
  rw [stop_drain]
  cases hq : s.runnableCoQue <;> split <;> simp [hq]

theorem runStep_load (s : ProcState) (e : SwapEffect) :
    (Processor.runStep s e).1.load
      = (if e.post = CoState.TERM then s.load - 1 else s.load)
          + (s.pendingTasks ++ e.arrivals).length := by
  simp only [Processor.runStep]
  rw [load_drain]
  cases hq : s.runnableCoQue <;> split <;> simp_all

theorem runStep_idle_noPending (s : ProcState) (e : SwapEffect)
    (hp : s.pendingTasks = []) (ha : e.arrivals = []) :
    (Processor.runStep s e).1.idleCoQue
      = if e.post = CoState.TERM
        then s.idleCoQue ++ [(Processor.runStep s e).2]
        else s.idleCoQue := by
  rw [runStep_snd]
  simp only [Processor.runStep]
  rw [drain_pending_nil _ (by cases hq : s.runnableCoQue <;> split <;> simp [hq, hp, ha])]
  cases hq : s.runnableCoQue <;> split <;> simp_all

/-- Membership in the idle list after one iteration: a shell is there either
because it was already idle, or because it is the just-swapped coroutine and
its observed state was TERM. -/
theorem runStep_idle_mem (s : ProcState) (e : SwapEffect) (c : Co)
    (h : c ∈ (Processor.runStep s e).1.idleCoQue) :
    c ∈ s.idleCoQue ∨ (c = (Processor.runStep s e).2 ∧ e.post = CoState.TERM) := by
  rw [runStep_snd]
  simp only [Processor.runStep] at h
  have h' := idle_drain_mem _ _ h
  cases hq : s.runnableCoQue <;> rw [hq] at h' <;> revert h' <;> split <;>
    simp_all

/-! ## Reachability invariants -/

/-- Every coroutine sitting in the runnable queue of a reachable Processor
state is in state EXEC: `addTask` marks it EXEC before enqueueing it. -/
theorem reach_queue_exec {s : ProcState} (hr : Reach s) :
    ∀ c ∈ s.runnableCoQue, c.state = CoState.EXEC := by
  induction hr with
  | init tid =>
      intro c hc
      simp [processorNew, runnableCoQue_addTaskNamed, emptyProc] at hc
      rcases hc with h | h <;> simp [h]
  | addTask co _ ih =>
      intro c hc
      rw [runnableCoQue_addTask] at hc
      rcases List.mem_append.1 hc with h | h
      · exact ih c h
      · simp at h; simp [h]
  | addTaskNamed name _ ih =>
      intro c hc
      rw [runnableCoQue_addTaskNamed] at hc
      rcases List.mem_append.1 hc with h | h
      · exact ih c h
      · simp at h; simp [h]
  | addPendingTask name _ ih =>
      intro c hc
      exact ih c hc
  | drain _ ih =>
      intro c hc
      rw [runnableCoQue_drain] at hc
      rcases List.mem_append.1 hc with h | h
      · exact ih c h
      · rcases List.mem_map.1 h with ⟨t, _, ht⟩
        simp [← ht]
  | runEnter _ ih =>
      intro c hc
      exact ih c hc
  | runStep e _ ih =>
      intro c hc
      rw [runStep_queue] at hc
      rcases List.mem_append.1 hc with h | h
      · exact ih c (List.mem_of_mem_tail h)
      · rcases List.mem_map.1 h with ⟨t, _, ht⟩
        simp [← ht]
  | stop _ ih =>
      intro c hc
      simp only [Processor.stopProc, Processor.wakeupEpollCo] at hc
      revert hc
      split <;> intro hc <;> exact ih c hc

/-- Every coroutine sitting on the idle free list of a reachable Processor
state is in state TERM: shells are pushed there only after `run` observed
their state to be TERM. -/
theorem reach_idle_term {s : ProcState} (hr : Reach s) :
    ∀ c ∈ s.idleCoQue, c.state = CoState.TERM := by
  induction hr with
  | init tid =>
      intro c hc
      simp [processorNew, idleCoQue_addTaskNamed, emptyProc] at hc
  | addTask co _ ih =>
      intro c hc
      rw [idleCoQue_addTask] at hc
      exact ih c hc
  | addTaskNamed name _ ih =>
      intro c hc
      rw [idleCoQue_addTaskNamed] at hc
      exact ih c (List.mem_of_mem_tail hc)
  | addPendingTask name _ ih =>
      intro c hc
      exact ih c hc
  | drain _ ih =>
      intro c hc
      exact ih c (idle_drain_mem _ _ hc)
  | runEnter _ ih =>
      intro c hc
      exact ih c hc
  | runStep e _ ih =>
      intro c hc
      rcases runStep_idle_mem _ e c hc with h | ⟨hc', hterm⟩
      · exact ih c h
      · rw [hc', runStep_snd]
        simpa using hterm
  | stop _ ih =>
      intro c hc
      simp only [Processor.stopProc, Processor.wakeupEpollCo] at hc
      revert hc
      split <;> intro hc <;> exact ih c hc


/-! ## Claim C1 -/

/-- C1 counterexample: immediately after construction, the Processor's
runnable queue holds two coroutines (Wake and timerQue) and both are in state
EXEC — `Processor::addTask` sets the state to EXEC on enqueue — so coroutines
sitting in the runnable queue ARE in state EXEC and more than one coroutine of
the thread is in state EXEC at once. -/
theorem c1_exec_counterexample :
    (processorNew 1).runnableCoQue.map Co.state = [CoState.EXEC, CoState.EXEC]
      ∧ ¬ (∀ c ∈ (processorNew 1).runnableCoQue, c.state ≠ CoState.EXEC) := by
  constructor
  · rfl
  · decide

/-- C1 (amended): in every reachable Processor state, every coroutine in the
runnable queue is in state EXEC — `addTask` marks a coroutine EXEC before
enqueueing it, so queued coroutines are EXEC before they execute and the
exactly-one-EXEC property does not hold of the EXEC state. -/
theorem c1_runnable_all_exec {s : ProcState} (hr : Reach s) :
    ∀ c ∈ s.runnableCoQue, c.state = CoState.EXEC :=
  reach_queue_exec hr

theorem c1_runnable_all_exec_witness :
    Reach (processorNew 1)
      ∧ ∀ c ∈ (processorNew 1).runnableCoQue, c.state = CoState.EXEC :=
  ⟨Reach.init 1, c1_runnable_all_exec (Reach.init 1)⟩

/-! ## Claim C7 -/

/-- C7: in every reachable Processor state, every coroutine on the idle free
list has state TERM — it was pushed there only after `run` observed TERM — so
the precondition of `Coroutine::reset` (state in TERM or INIT) holds for every
coroutine `resetAndGetCo` takes from the idle list and resets. -/
theorem c7_reset_precondition {s : ProcState} (hr : Reach s) :
    ∀ c ∈ s.idleCoQue, c.state = CoState.TERM ∧ Coroutine.resetPre c := by
  intro c hc
  have h := reach_idle_term hr c hc
  exact ⟨h, Or.inl h⟩

theorem c7_reset_precondition_witness :
    Reach (Processor.runStep (processorNew 1) ⟨CoState.TERM, [], false⟩).1
      ∧ ∀ c ∈ (Processor.runStep (processorNew 1) ⟨CoState.TERM, [], false⟩).1.idleCoQue,
          c.state = CoState.TERM ∧ Coroutine.resetPre c :=
  ⟨Reach.runStep _ (Reach.init 1),
   c7_reset_precondition (Reach.runStep _ (Reach.init 1))⟩

/-! ## Claim C4 -/

/-- C4: the drain side (`addPendingTasksIntoQueue`) does swap the buffer out
with the mutex held, but the append in `addPendingTask` (Processor.cc:124)
accesses `pendingTasks_` with the mutex NOT held — the claim that all accesses
to `pendingTasks_` occur under the same mutex is violated by the code. -/
theorem c4_append_unsynchronized :
    touchesPendingTasks (addPendingTaskStmts.getD 0 PStmt.writeWakeup) = true
      ∧ mutexHeldAt addPendingTaskStmts 0 = false
      ∧ (∀ i, i < addPendingTasksIntoQueueStmts.length →
            touchesPendingTasks (addPendingTasksIntoQueueStmts.getD i PStmt.writeWakeup) = true →
            mutexHeldAt addPendingTasksIntoQueueStmts i = true)
      ∧ ¬ (∀ i, i < addPendingTaskStmts.length →
            touchesPendingTasks (addPendingTaskStmts.getD i PStmt.writeWakeup) = true →
            mutexHeldAt addPendingTaskStmts i = true) := by
  refine ⟨rfl, rfl, ?_, ?_⟩ <;> decide

/-! ## Claim C6 -/

/-- C6 counterexample: calling `updateEvent` (or `removeEvent`) from a thread
that is not the owning thread (owner tid 1, caller tid 2) does NOT raise a
fatal error — both forward to CoEpoll and return normally, because their
bodies contain no thread check. -/
theorem c6_cross_thread_counterexample :
    Processor.isInProcThread (processorNew 1) 2 = false
      ∧ Processor.updateEvent (processorNew 1) 2 [] 5 3
          = Except.ok [((5 : Int), (3 : Int))]
      ∧ Processor.removeEvent (processorNew 1) 2 [((5 : Int), (3 : Int))] 5
          = Except.ok [] := by
  refine ⟨rfl, rfl, ?_⟩
  simp [Processor.removeEvent, CoEpoll.removeEvent]

/-- C6 (amended): `updateEvent` and `removeEvent` forward to CoEpoll from any
calling thread and never abort — no owning-thread check is performed in their
bodies; the owning-thread assertion exists only in `assertInProcThread` (used
by `run`), which succeeds exactly when the caller is the owning thread. -/
theorem c6_no_thread_check :
    (∀ (s : ProcState) (tid : Nat) (ep : EpollState) (fd ev : Int),
        Processor.updateEvent s tid ep fd ev = Except.ok (CoEpoll.updateEvent ep fd ev))
      ∧ (∀ (s : ProcState) (tid : Nat) (ep : EpollState) (fd : Int),
          Processor.removeEvent s tid ep fd = Except.ok (CoEpoll.removeEvent ep fd))
      ∧ (∀ (s : ProcState) (tid : Nat),
          Processor.assertInProcThread s tid = Except.ok () ↔ s.threadId = tid) := by
  refine ⟨fun _ _ _ _ _ => rfl, fun _ _ _ _ => rfl, fun s tid => ?_⟩
  unfold Processor.assertInProcThread Processor.isInProcThread
  by_cases h : s.threadId = tid <;> simp [h]

/-! ## Run-loop lemmas (Processor.cc:67-86) -/

theorem runLoop_succ_pos (eff : Nat → SwapEffect) (fuel i : Nat) (t : ProcState)
    (hg : (t.stop && t.runnableCoQue.isEmpty) = true) :
    Processor.runLoop eff (fuel + 1) i t = (t, [], true) := by
  simp [Processor.runLoop, hg]

theorem runLoop_succ_neg (eff : Nat → SwapEffect) (fuel i : Nat) (t : ProcState)
    (hg : (t.stop && t.runnableCoQue.isEmpty) = false) :
    Processor.runLoop eff (fuel + 1) i t =
      ((Processor.runLoop eff fuel (i + 1) (Processor.runStep t (eff i)).1).1,
       (Processor.runStep t (eff i)).2
         :: (Processor.runLoop eff fuel (i + 1) (Processor.runStep t (eff i)).1).2.1,
       (Processor.runLoop eff fuel (i + 1) (Processor.runStep t (eff i)).1).2.2) := by
  simp [Processor.runLoop, hg]

/-- If the loop reports a normal exit (guard became false), the final state has
the stop flag set and an empty runnable queue: the loop runs while the stop
flag is unset or the queue is non-empty. -/
theorem runLoop_exit_ok (eff : Nat → SwapEffect) :
    ∀ (fuel i : Nat) (t : ProcState),
      (Processor.runLoop eff fuel i t).2.2 = true →
      (Processor.runLoop eff fuel i t).1.stop = true
        ∧ (Processor.runLoop eff fuel i t).1.runnableCoQue = [] := by
  intro fuel
  induction fuel with
  | zero =>
      intro i t h
      simp only [Processor.runLoop] at h ⊢
      rw [Bool.and_eq_true] at h
      exact ⟨h.1, by simpa using h.2⟩
  | succ fuel ih =>
      intro i t h
      cases hg : (t.stop && t.runnableCoQue.isEmpty) with
      | true =>
          rw [runLoop_succ_pos eff fuel i t hg]
          rw [Bool.and_eq_true] at hg
          exact ⟨hg.1, by simpa using hg.2⟩
      | false =>
          rw [runLoop_succ_neg eff fuel i t hg] at h ⊢
          exact ih (i + 1) (Processor.runStep t (eff i)).1 h

/-- Tasks already in the runnable queue when stop has been requested are still
executed: with the stop flag set, an empty pending buffer and no further
cross-thread arrivals, the loop swaps in exactly the queued coroutines, in
FIFO order, and then exits through its guard. -/
theorem runLoop_stopped (eff : Nat → SwapEffect) (harr : ∀ i, (eff i).arrivals = []) :
    ∀ (q : List Co) (i0 : Nat) (t : ProcState),
      t.stop = true → t.pendingTasks = [] → t.runnableCoQue = q →
      (Processor.runLoop eff q.length i0 t).2.1.map Co.name = q.map Co.name
        ∧ (Processor.runLoop eff q.length i0 t).2.2 = true := by
  intro q
  induction q with
  | nil =>
      intro i0 t ht hp hq
      simp [Processor.runLoop, ht, hq]
  | cons c rest ih =>
      intro i0 t ht hp hq
      have hg : (t.stop && t.runnableCoQue.isEmpty) = false := by simp [hq]
      rw [List.length_cons, runLoop_succ_neg eff rest.length i0 t hg]
      have h1 : (Processor.runStep t (eff i0)).1.stop = true := by
        rw [runStep_stop, ht]; rfl
      have h2 : (Processor.runStep t (eff i0)).1.pendingTasks = [] :=
        runStep_pending _ _
      have h3 : (Processor.runStep t (eff i0)).1.runnableCoQue = rest := by
        rw [runStep_queue, hq, hp, harr i0]; simp
      have hname : (Processor.runStep t (eff i0)).2.name = c.name := by
        rw [runStep_snd, hq]; rfl
      have hr := ih (i0 + 1) (Processor.runStep t (eff i0)).1 h1 h2 h3
      refine ⟨?_, hr.2⟩
      simp [hname, hr.1]

/-! ## Claim C3 -/

/-- C3: `Processor::run` loops while the stop flag is unset or the runnable
queue is non-empty (the loop exits through its guard only with stop set and an
empty queue); each iteration swaps in the queue head — or the epoll coroutine
when the queue is empty — and, when the returned state is TERM, decrements the
load counter and pushes the shell onto the idle list; each iteration then
drains the pending-tasks buffer into the runnable queue; after the loop one
more epoll-coroutine swap happens; and tasks already queued when stop was
requested are still executed, in FIFO order. -/
theorem c3_run_loop (eff : Nat → SwapEffect) (s : ProcState)
    (hstop : s.stop = true) (hpend : s.pendingTasks = [])
    (harr : ∀ i, (eff i).arrivals = []) :
    (∀ (fuel i : Nat) (t : ProcState),
        (Processor.runLoop eff fuel i t).2.2 = true →
        (Processor.runLoop eff fuel i t).1.stop = true
          ∧ (Processor.runLoop eff fuel i t).1.runnableCoQue = [])
    ∧ (∀ (t : ProcState) (e : SwapEffect),
        (Processor.runStep t e).2
          = { t.runnableCoQue.headD epollCo0 with state := e.post })
    ∧ (∀ (t : ProcState) (e : SwapEffect), t.pendingTasks = [] → e.arrivals = [] →
        ((e.post = CoState.TERM →
            (Processor.runStep t e).1.load = t.load - 1
              ∧ (Processor.runStep t e).1.idleCoQue
                  = t.idleCoQue ++ [(Processor.runStep t e).2])
          ∧ (e.post ≠ CoState.TERM →
            (Processor.runStep t e).1.load = t.load
              ∧ (Processor.runStep t e).1.idleCoQue = t.idleCoQue)))
    ∧ (∀ (t : ProcState) (e : SwapEffect),
        (Processor.runStep t e).1.runnableCoQue
          = t.runnableCoQue.tail
              ++ (t.pendingTasks ++ e.arrivals).map (fun p => (⟨p.name, CoState.EXEC⟩ : Co))
          ∧ (Processor.runStep t e).1.pendingTasks = [])
    ∧ (∀ (fuel : Nat) (t : ProcState),
        (Processor.run eff fuel t).2
          = (Processor.runLoop eff fuel 0 { t with stop := false }).2.1 ++ [epollCo0])
    ∧ ((Processor.runLoop eff s.runnableCoQue.length 0 s).2.1.map Co.name
          = s.runnableCoQue.map Co.name
        ∧ (Processor.runLoop eff s.runnableCoQue.length 0 s).2.2 = true) := by
  refine ⟨runLoop_exit_ok eff, fun t e => runStep_snd t e, ?_, ?_, fun fuel t => rfl,
          runLoop_stopped eff harr s.runnableCoQue 0 s hstop hpend rfl⟩
  · intro t e hp ha
    constructor
    · intro hT
      constructor
      · rw [runStep_load]; simp [hp, ha, hT]
      · rw [runStep_idle_noPending t e hp ha]; simp [hT]
    · intro hT
      constructor
      · rw [runStep_load]; simp [hp, ha, hT]
      · rw [runStep_idle_noPending t e hp ha]; simp [hT]
  · intro t e
    exact ⟨runStep_queue t e, runStep_pending t e⟩

theorem c3_run_loop_witness :
    (c3state.stop = true ∧ c3state.pendingTasks = []
      ∧ ∀ i, (c3eff i).arrivals = [])
    ∧ ((∀ (fuel i : Nat) (t : ProcState),
          (Processor.runLoop c3eff fuel i t).2.2 = true →
          (Processor.runLoop c3eff fuel i t).1.stop = true
            ∧ (Processor.runLoop c3eff fuel i t).1.runnableCoQue = [])
      ∧ (∀ (t : ProcState) (e : SwapEffect),
          (Processor.runStep t e).2
            = { t.runnableCoQue.headD epollCo0 with state := e.post })
      ∧ (∀ (t : ProcState) (e : SwapEffect), t.pendingTasks = [] → e.arrivals = [] →
          ((e.post = CoState.TERM →
              (Processor.runStep t e).1.load = t.load - 1
                ∧ (Processor.runStep t e).1.idleCoQue
                    = t.idleCoQue ++ [(Processor.runStep t e).2])
            ∧ (e.post ≠ CoState.TERM →
              (Processor.runStep t e).1.load = t.load
                ∧ (Processor.runStep t e).1.idleCoQue = t.idleCoQue)))
      ∧ (∀ (t : ProcState) (e : SwapEffect),
          (Processor.runStep t e).1.runnableCoQue
            = t.runnableCoQue.tail
                ++ (t.pendingTasks ++ e.arrivals).map (fun p => (⟨p.name, CoState.EXEC⟩ : Co))
            ∧ (Processor.runStep t e).1.pendingTasks = [])
      ∧ (∀ (fuel : Nat) (t : ProcState),
          (Processor.run c3eff fuel t).2
            = (Processor.runLoop c3eff fuel 0 { t with stop := false }).2.1 ++ [epollCo0])
      ∧ ((Processor.runLoop c3eff c3state.runnableCoQue.length 0 c3state).2.1.map Co.name
            = c3state.runnableCoQue.map Co.name
          ∧ (Processor.runLoop c3eff c3state.runnableCoQue.length 0 c3state).2.2 = true)) :=
  ⟨⟨rfl, rfl, fun _ => rfl⟩, c3_run_loop c3eff c3state rfl rfl (fun _ => rfl)⟩

/-! ## Claim C5 -/

/-- C5 counterexample: starting from the freshly constructed Processor
(load = 2, queue = Wake, timerQue), one loop iteration in which the swapped-in
Wake coroutine suspends (returns in state HOLD, as it does when its hooked
read of the wakeup fd would block): afterwards the load counter is still 2,
but only 1 non-TERM coroutine is enqueued and none is currently running — the
claimed equality (load = non-TERM enqueued or running) fails because a
suspended coroutine stays counted. -/
theorem c5_load_counterexample :
    (Processor.runStep (processorNew 1) ⟨CoState.HOLD, [], false⟩).1.load = 2
      ∧ ((Processor.runStep (processorNew 1) ⟨CoState.HOLD, [], false⟩).1.runnableCoQue.filter
          (fun c => c.state != CoState.TERM)).length = 1 := by
  constructor <;> rfl

/-- C5 (amended): the mechanism half of the claim holds — `addTask` increments
the load by one per enqueued coroutine, and a loop iteration of `run`
decrements it by one exactly when the swapped-in coroutine returns in state
TERM (shown here with an empty pending buffer and no cross-thread arrivals,
so that the drain adds nothing) — but the load counts every coroutine added
and not yet observed TERM, including ones suspended in HOLD, so it can exceed
the number of non-TERM coroutines enqueued or running. -/
theorem c5_load_mechanism (s : ProcState) (co : Co) (e : SwapEffect)
    (hp : s.pendingTasks = []) (ha : e.arrivals = []) :
    (Processor.addTask s co).load = s.load + 1
      ∧ (Processor.runStep s e).1.load
          = (if e.post = CoState.TERM then s.load - 1 else s.load) := by
  refine ⟨load_addTask s co, ?_⟩
  rw [runStep_load]
  simp [hp, ha]

theorem c5_load_mechanism_witness :
    ((processorNew 1).pendingTasks = []
      ∧ (⟨CoState.HOLD, [], false⟩ : SwapEffect).arrivals = [])
    ∧ ((Processor.addTask (processorNew 1) ⟨"x", CoState.INIT⟩).load
          = (processorNew 1).load + 1
      ∧ (Processor.runStep (processorNew 1) ⟨CoState.HOLD, [], false⟩).1.load
          = (if CoState.HOLD = CoState.TERM
             then (processorNew 1).load - 1 else (processorNew 1).load)) :=
  ⟨⟨rfl, rfl⟩,
   c5_load_mechanism (processorNew 1) ⟨"x", CoState.INIT⟩ ⟨CoState.HOLD, [], false⟩ rfl rfl⟩

/-! ## Claim C9 -/

/-- C9 counterexample: while the stop flag is still unset, a failed read of
the wakeup fd (`consumeWakeUp()` returning a negative value, here -1) makes
the Wake coroutine break out of its loop, so its callback returns and the
coroutine reaches TERM with stop unset — contradicting the claim that neither
helper coroutine reaches TERM while the stop flag is unset. -/
theorem c9_wake_break_counterexample :
    wakeLoopExits false (-1) = true
      ∧ wakeCoStateAfterStep false (-1) = some CoState.TERM := by
  constructor <;> rfl

/-- C9 (amended): constructing a Processor pre-enqueues exactly the two helper
coroutines Wake and timerQue (so the runnable queue holds exactly these two
and the load counter equals 2), and as long as the stop flag is unset neither
helper's loop exits — hence neither reaches TERM — provided the reads of the
wakeup fd do not fail; on a failed (negative) read the Wake coroutine exits
its loop and terminates even with stop unset.  When stop is set, both loops
exit. -/
theorem c9_construction (tid : Nat) (r : Int) (hr : 0 ≤ r) :
    (processorNew tid).runnableCoQue.map Co.name = ["Wake", "timerQue"]
      ∧ (processorNew tid).runnableCoQue.length = 2
      ∧ (processorNew tid).load = 2
      ∧ (processorNew tid).idleCoQue = []
      ∧ (processorNew tid).pendingTasks = []
      ∧ wakeLoopExits false r = false
      ∧ timerLoopExits false = false
      ∧ wakeCoStateAfterStep false r = none
      ∧ wakeLoopExits true r = true
      ∧ timerLoopExits true = true := by
  have hnr : ¬ (r < 0) := not_lt.mpr hr
  refine ⟨?_, ?_, ?_, ?_, ?_, ?_, rfl, ?_, rfl, rfl⟩
  · simp [processorNew, runnableCoQue_addTaskNamed, emptyProc]
  · simp [processorNew, runnableCoQue_addTaskNamed, emptyProc]
  · simp [processorNew, load_addTaskNamed, emptyProc]
  · simp [processorNew, idleCoQue_addTaskNamed, emptyProc]
  · simp [processorNew, pendingTasks_addTaskNamed, emptyProc]
  · simp [wakeLoopExits, hnr]
  · simp [wakeCoStateAfterStep, wakeLoopExits, hnr]

theorem c9_construction_witness :
    (0 : Int) ≤ 8
      ∧ ((processorNew 1).runnableCoQue.map Co.name = ["Wake", "timerQue"]
        ∧ (processorNew 1).runnableCoQue.length = 2
        ∧ (processorNew 1).load = 2
        ∧ (processorNew 1).idleCoQue = []
        ∧ (processorNew 1).pendingTasks = []
        ∧ wakeLoopExits false 8 = false
        ∧ timerLoopExits false = false
        ∧ wakeCoStateAfterStep false 8 = none
        ∧ wakeLoopExits true 8 = true
        ∧ timerLoopExits true = true) :=
  ⟨by decide, c9_construction 1 8 (by decide)⟩

/-! ## Claim C8 -/

/-- A Processor's stop flag is set after `Processor::stop`. -/
theorem stopProc_stop (p : ProcState) : (Processor.stopProc p).stop = true := by
  simp only [Processor.stopProc, Processor.wakeupEpollCo]
  split <;> rfl

/-- C8: on a running Scheduler, `stop` requests stop on the main Processor and
on every worker Processor; the join runs on a detached helper thread exactly
when the caller's hook-enabled flag says it is a Processor thread (so the
calling thread never joins itself), and inline otherwise; `wait` can return
only once `joinThread` has completed — inline stop completes it immediately,
while with the detached helper `wait` still blocks until the helper's
`joinThread` finishes. -/
theorem c8_stop (s : SchedState) (hook : Bool)
    (hrun : s.running = true) (hq : s.quit = false) :
    (Scheduler.stopS s hook).1.mainStopRequested = true
      ∧ (∀ p ∈ (Scheduler.stopS s hook).1.workProcs, p.stop = true)
      ∧ (Scheduler.stopS s hook).2
          = some (if hook then JoinMode.detachedHelper else JoinMode.inlineJoin)
      ∧ (hook = false →
          (Scheduler.stopS s hook).1.threadsJoined = true
            ∧ Scheduler.waitReturns (Scheduler.stopS s hook).1 = true)
      ∧ (hook = true →
          Scheduler.waitReturns (Scheduler.stopS s hook).1 = false
            ∧ (Scheduler.joinThread (Scheduler.stopS s hook).1).threadsJoined = true
            ∧ Scheduler.waitReturns
                (Scheduler.joinThread (Scheduler.stopS s hook).1) = true) := by
  cases hook <;>
    simp_all [Scheduler.stopS, Scheduler.joinThread, Scheduler.waitReturns, hrun] <;>
    exact fun p hp => stopProc_stop p

theorem c8_stop_witness :
    (c8state.running = true ∧ c8state.quit = false)
    ∧ ((Scheduler.stopS c8state true).1.mainStopRequested = true
      ∧ (∀ p ∈ (Scheduler.stopS c8state true).1.workProcs, p.stop = true)
      ∧ (Scheduler.stopS c8state true).2
          = some (if true then JoinMode.detachedHelper else JoinMode.inlineJoin)
      ∧ (true = false →
          (Scheduler.stopS c8state true).1.threadsJoined = true
            ∧ Scheduler.waitReturns (Scheduler.stopS c8state true).1 = true)
      ∧ (true = true →
          Scheduler.waitReturns (Scheduler.stopS c8state true).1 = false
            ∧ (Scheduler.joinThread (Scheduler.stopS c8state true).1).threadsJoined = true
            ∧ Scheduler.waitReturns
                (Scheduler.joinThread (Scheduler.stopS c8state true).1) = true)) :=
  ⟨⟨rfl, rfl⟩, c8_stop c8state true rfl rfl⟩

/-! ## Claim C10 -/

/-- C10: with no worker Processors and no main Processor — the state before
`start()` has run (as built by the Scheduler constructor) or after `stop()`
has cleared the main pointer on a worker-less Scheduler — `pickOneProcesser`
raises the fatal "start scheduler first" error, and therefore `addTask`,
`runAt` and `runAfter` all fail with that fatal error instead of queueing or
dropping the task.  The last conjunct shows `stop` indeed nulls the main
Processor pointer on any running Scheduler. -/
theorem c10_no_processor_fatal (s : SchedState) (n : String) (w d : Int)
    (hw : s.workProcs = []) (hm : s.mainProc = none) :
    Scheduler.pickOneProcesser s = Except.error FatalErr.startSchedulerFirst
      ∧ Scheduler.addTaskS s n = Except.error FatalErr.startSchedulerFirst
      ∧ Scheduler.runAtS s w = Except.error FatalErr.startSchedulerFirst
      ∧ Scheduler.runAfterS s w d = Except.error FatalErr.startSchedulerFirst
      ∧ schedulerNew.workProcs = [] ∧ schedulerNew.mainProc = none
      ∧ (∀ (t : SchedState) (hook : Bool), t.running = true →
          (Scheduler.stopS t hook).1.mainProc = none) := by
  have hp : Scheduler.pickOneProcesser s = Except.error FatalErr.startSchedulerFirst := by
    simp [Scheduler.pickOneProcesser, hw, hm]
  refine ⟨hp, ?_, ?_, ?_, rfl, rfl, ?_⟩
  · simp [Scheduler.addTaskS, hp]
  · simp [Scheduler.runAtS, hp]
  · simp [Scheduler.runAfterS, Scheduler.runAtS, hp]
  · intro t hook hrt
    cases hook <;> simp [Scheduler.stopS, Scheduler.joinThread, hrt]

theorem c10_no_processor_fatal_witness :
    (schedulerNew.workProcs = [] ∧ schedulerNew.mainProc = none)
    ∧ (Scheduler.pickOneProcesser schedulerNew
          = Except.error FatalErr.startSchedulerFirst
      ∧ Scheduler.addTaskS schedulerNew "t" = Except.error FatalErr.startSchedulerFirst
      ∧ Scheduler.runAtS schedulerNew 0 = Except.error FatalErr.startSchedulerFirst
      ∧ Scheduler.runAfterS schedulerNew 0 5 = Except.error FatalErr.startSchedulerFirst
      ∧ schedulerNew.workProcs = [] ∧ schedulerNew.mainProc = none
      ∧ (∀ (t : SchedState) (hook : Bool), t.running = true →
          (Scheduler.stopS t hook).1.mainProc = none)) :=
  ⟨⟨rfl, rfl⟩, c10_no_processor_fatal schedulerNew "t" 0 5 rfl rfl⟩

/-! ## Round-robin dispatch lemmas (Scheduler.cc:133-147) -/

theorem getD_set_self {α : Type} (l : List α) (i : Nat) (a d : α)
    (h : i < l.length) : (l.set i a).getD i d = a := by
  induction l generalizing i with
  | nil => simp at h
  | cons x xs ih =>
      cases i with
      | zero => rfl
      | succ i => exact ih i (by simpa using h)

theorem getD_set_ne {α : Type} (l : List α) (i j : Nat) (a d : α)
    (h : i ≠ j) : (l.set i a).getD j d = l.getD j d := by
  induction l generalizing i j with
  | nil => simp
  | cons x xs ih =>
      cases i with
      | zero =>
          cases j with
          | zero => exact absurd rfl h
          | succ j => rfl
      | succ i =>
          cases j with
          | zero => rfl
          | succ j => exact ih i j (fun hh => h (by rw [hh]))

theorem countP_range_eq (j : Nat) :
    ∀ k, j < k → (List.range k).countP (fun x => decide (x = j)) = 1 := by
  intro k
  induction k with
  | zero => intro h; exact absurd h (Nat.not_lt_zero j)
  | succ k ih =>
      intro hj
      rw [List.range_succ, List.countP_append]
      by_cases h : j = k
      · subst h
        have h0 : (List.range j).countP (fun x => decide (x = j)) = 0 :=
          List.countP_eq_zero.mpr (fun x hx => by
            simp [Nat.ne_of_lt (List.mem_range.mp hx)])
        simp [h0]
      · have hj' : j < k := lt_of_le_of_ne (Nat.lt_succ_iff.mp hj) h
        rw [ih hj']
        have : k ≠ j := fun hh => h hh.symm
        simp [this]

/-- The worker indices produced by round-robin assignment starting at a valid
index are successive values modulo the worker count. -/
theorem rrAssign_fst (k : Nat) (hk : 0 < k) :
    ∀ (ts : List String) (i : Nat), i < k →
      (rrAssign k i ts).map Prod.fst
        = (List.range ts.length).map (fun n => (i + n) % k) := by
  intro ts
  induction ts with
  | nil => intro i hi; simp [rrAssign]
  | cons t ts ih =>
      intro i hi
      have hmod : (i + 1) % k < k := Nat.mod_lt _ hk
      simp only [rrAssign, List.map_cons, List.length_cons,
                 List.range_succ_eq_map, List.map_map]
      refine congrArg₂ List.cons ?_ ?_
      · rw [Nat.add_zero, Nat.mod_eq_of_lt hi]
      · rw [ih ((i + 1) % k) hmod]
        refine List.map_congr_left (fun n _ => ?_)
        simp only [Function.comp]
        rw [Nat.mod_add_mod]
        congr 1
        omega

/-- Splitting the round-robin bucket at the head of the task list. -/
theorem rrBucketFrom_cons (k i j : Nat) (t : String) (ts : List String) :
    rrBucketFrom k i j (t :: ts)
      = (if i = j then [t] else []) ++ rrBucketFrom k ((i + 1) % k) j ts := by
  by_cases h : i = j <;>
    simp [rrBucketFrom, rrAssign, List.filter_cons, h]

/-- Per-worker order preservation: the bucket a worker receives is an ordered
subsequence of the submitted task list. -/
theorem rrBucketFrom_sublist (k j : Nat) :
    ∀ (ts : List String) (i : Nat), (rrBucketFrom k i j ts).Sublist ts := by
  intro ts
  induction ts with
  | nil => intro i; simp [rrBucketFrom, rrAssign]
  | cons t ts ih =>
      intro i
      rw [rrBucketFrom_cons]
      by_cases h : i = j
      · simpa [h] using List.Sublist.cons₂ t (ih ((i + 1) % k))
      · simpa [h] using List.Sublist.cons t (ih ((i + 1) % k))

/-- Equal shares: when k divides the number of tasks as n = k * m, the bucket
of every worker j < k holds exactly m tasks. -/
theorem rrBucketFrom_length (k m j : Nat) (hk : 0 < k) (hj : j < k)
    (ts : List String) (hlen : ts.length = k * m) :
    (rrBucketFrom k 0 j ts).length = m := by
  have hfst := rrAssign_fst k hk ts 0 hk
  have h1 : (rrBucketFrom k 0 j ts).length
      = ((rrAssign k 0 ts).map Prod.fst).countP (fun x => decide (x = j)) := by
    rw [rrBucketFrom, List.length_map, ← List.countP_eq_length_filter,
        List.countP_map]
    rfl
  rw [h1, hfst, List.countP_map, hlen]
  rw [List.countP_congr
        (show ∀ n ∈ List.range (k * m),
            ((fun x => decide (x = j)) ∘ (fun n => (0 + n) % k)) n = true
              ↔ (fun n => decide (n % k = j)) n = true from
          fun n _ => by simp [Function.comp])]
  -- count of n < k*m with n % k = j, by induction on m
  clear hfst h1 hlen ts
  induction m with
  | zero => simp
  | succ m ih =>
      have hsplit : k * (m + 1) = k * m + k := by ring
      rw [hsplit, List.range_add, List.countP_append, ih, List.countP_map]
      rw [List.countP_congr
            (show ∀ x ∈ List.range k,
                ((fun n => decide (n % k = j)) ∘ (fun x => k * m + x)) x = true
                  ↔ (fun x => decide (x = j)) x = true from by
              intro x hx
              have hxk : x < k := List.mem_range.mp hx
              simp only [Function.comp]
              have hmm : (k * m + x) % k = x := by
                rw [Nat.add_comm, Nat.add_mul_mod_self_left, Nat.mod_eq_of_lt hxk]
              rw [hmm])]
      rw [countP_range_eq j k hj]

theorem pendingTasks_addPendingTask (p : ProcState) (t : String) :
    (Processor.addPendingTask p t).pendingTasks = p.pendingTasks ++ [⟨t⟩] := by
  simp [Processor.addPendingTask, Processor.wakeupEpollCo]

/-- Dispatching a task list through `Scheduler::addTask` with k workers
present: every submission succeeds and worker j ends up with its previous
pending buffer extended, in submission order, by exactly the round-robin
bucket of tasks starting from the current index. -/
theorem submitList_workers (k : Nat) (hk : 0 < k) :
    ∀ (ts : List String) (s : SchedState), s.workProcs.length = k → s.rrIndex < k →
      ∃ s', Scheduler.submitList s ts = Except.ok s'
        ∧ s'.workProcs.length = k
        ∧ ∀ j, j < k →
            (s'.workProcs.getD j default).pendingTasks
              = (s.workProcs.getD j default).pendingTasks
                  ++ (rrBucketFrom k s.rrIndex j ts).map (fun n => (⟨n⟩ : PTask)) := by
  intro ts
  induction ts with
  | nil =>
      intro s hw hi
      exact ⟨s, rfl, hw, fun j hj => by simp [rrBucketFrom, rrAssign]⟩
  | cons t ts ih =>
      intro s hw hi
      have hne : s.workProcs.isEmpty = false := by
        cases hq : s.workProcs
        · rw [hq] at hw; simp at hw; omega
        · rfl
      have hpick : Scheduler.pickOneProcesser s
          = Except.ok (Picked.worker s.rrIndex,
              { s with rrIndex := (s.rrIndex + 1) % s.workProcs.length }) := by
        simp [Scheduler.pickOneProcesser, hne]
      have hstep : Scheduler.submitList s (t :: ts)
          = Scheduler.submitList (submitStep s t) ts := by
        simp [Scheduler.submitList, Scheduler.addTaskS, hpick, submitStep]
      have hw2 : (submitStep s t).workProcs.length = k := by
        simp [submitStep, hw]
      have hi2 : (submitStep s t).rrIndex < k := by
        simp only [submitStep, hw]
        exact Nat.mod_lt _ hk
      obtain ⟨s', hsub, hlen', hpend⟩ := ih (submitStep s t) hw2 hi2
      refine ⟨s', by rw [hstep]; exact hsub, hlen', fun j hj => ?_⟩
      rw [hpend j hj]
      simp only [submitStep, hw]
      rw [rrBucketFrom_cons]
      rcases eq_or_ne s.rrIndex j with hij | hij
      · rw [hij, getD_set_self _ _ _ _ (by rw [hw]; exact hij ▸ hj),
            pendingTasks_addPendingTask]
        simp [hij]
      · rw [getD_set_ne _ _ _ _ _ hij]
        simp [hij]

/-! ## Claim C2 -/

/-- C2: with a non-empty worker vector, `pickOneProcesser` returns the worker
at the round-robin index and advances the index cyclically — never the main
Processor; with no workers the main Processor is returned.  Submitting a task
list distributes it round-robin: every submission succeeds and worker j
receives, appended in submission order, exactly the tasks at positions
congruent to j modulo k; with n = k*m tasks each worker receives exactly m;
and each worker's received list is an ordered subsequence of the submitted
list. -/
theorem c2_round_robin (k m j : Nat) (ts : List String) (s : SchedState)
    (hk : 0 < k) (hw : s.workProcs.length = k) (hi : s.rrIndex = 0)
    (hj : j < k) (hlen : ts.length = k * m) :
    (∀ (u : SchedState), u.workProcs ≠ [] →
        Scheduler.pickOneProcesser u
          = Except.ok (Picked.worker u.rrIndex,
              { u with rrIndex := (u.rrIndex + 1) % u.workProcs.length }))
      ∧ (∀ (u : SchedState) (p : ProcState), u.workProcs = [] → u.mainProc = some p →
          Scheduler.pickOneProcesser u = Except.ok (Picked.main, u))
      ∧ (∃ s', Scheduler.submitList s ts = Except.ok s'
          ∧ s'.workProcs.length = k
          ∧ ∀ j', j' < k →
              (s'.workProcs.getD j' default).pendingTasks
                = (s.workProcs.getD j' default).pendingTasks
                    ++ (rrBucketFrom k 0 j' ts).map (fun n => (⟨n⟩ : PTask)))
      ∧ (rrBucketFrom k 0 j ts).length = m
      ∧ (rrBucketFrom k 0 j ts).Sublist ts := by
  refine ⟨?_, ?_, ?_, rrBucketFrom_length k m j hk hj ts hlen,
          rrBucketFrom_sublist k j ts 0⟩
  · intro u hu
    have hne : u.workProcs.isEmpty = false := by
      cases hq : u.workProcs
      · exact absurd hq hu
      · rfl
    simp [Scheduler.pickOneProcesser, hne]
  · intro u p hu hp
    simp [Scheduler.pickOneProcesser, hu, hp]
  · have := submitList_workers k hk ts s hw (hi ▸ hk)
    rwa [hi] at this

theorem c2_round_robin_witness :
    (0 < 2 ∧ c2state.workProcs.length = 2 ∧ c2state.rrIndex = 0
      ∧ 1 < 2 ∧ c2tasks.length = 2 * 2)
    ∧ ((∀ (u : SchedState), u.workProcs ≠ [] →
          Scheduler.pickOneProcesser u
            = Except.ok (Picked.worker u.rrIndex,
                { u with rrIndex := (u.rrIndex + 1) % u.workProcs.length }))
      ∧ (∀ (u : SchedState) (p : ProcState), u.workProcs = [] → u.mainProc = some p →
          Scheduler.pickOneProcesser u = Except.ok (Picked.main, u))
      ∧ (∃ s', Scheduler.submitList c2state c2tasks = Except.ok s'
          ∧ s'.workProcs.length = 2
          ∧ ∀ j', j' < 2 →
              (s'.workProcs.getD j' default).pendingTasks
                = (c2state.workProcs.getD j' default).pendingTasks
                    ++ (rrBucketFrom 2 0 j' c2tasks).map (fun n => (⟨n⟩ : PTask)))
      ∧ (rrBucketFrom 2 0 1 c2tasks).length = 2
      ∧ (rrBucketFrom 2 0 1 c2tasks).Sublist c2tasks) :=
  ⟨⟨by decide, rfl, rfl, by decide, rfl⟩,
   c2_round_robin 2 2 1 c2tasks c2state (by decide) rfl rfl (by decide) rfl⟩
